import Mathlib

/-!
Verification of the classifier-chain inference core (`cc_rl`).

The tree search in `EpsilonApproximationInferer._infer` / `__dfs` is
vectorized over the batch, but every array operation is element-wise or
masked per row, so the batch run is the product of independent per-row
searches.  We embed the per-row search directly and lift it to batches by
mapping over a list of rows; a row is represented by its estimator family
`E : List Bool → ℚ × ℚ`, the function sending the labels decided so far
(chain order) to the pair of branch probabilities that
`estimators_[i].predict_proba(x_row ++ labels)` returns for that row.
Floating-point numbers are idealized as rationals.
-/

/-- The two losses accepted by `BaseInferer.__init__`. -/
inductive Loss where
  | exact_match : Loss
  | hamming : Loss
deriving DecidableEq

/-- `BaseInferer._new_score`: multiply for exact-match, add for hamming. -/
def new_score (loss : Loss) (past p : ℚ) : ℚ :=
  match loss with
  | .exact_match => past * p
  | .hamming => past + p

/-- The identity used by `BaseInferer.__calculate_reward` to start the
reward accumulator: `np.ones` for exact-match, `np.zeros` for hamming. -/
def lossInit (loss : Loss) : ℚ :=
  match loss with
  | .exact_match => 1
  | .hamming => 0

/-- A single row of the batch: labels decided so far (chain order) ↦ the
probabilities `(p0, p1)` returned by the estimator at the current depth. -/
abbrev RowE := List Bool → ℚ × ℚ

/-- `np.argmax([p0, p1])` cast to bool: index 1 exactly when `p0 < p1`
(ties give index 0, i.e. `false`). -/
def argmaxIdx (pr : ℚ × ℚ) : Bool := decide (pr.1 < pr.2)

/-- `np.argmin([p0, p1])` cast to bool: index 1 exactly when `p1 < p0`
(ties give index 0, i.e. `false`). -/
def argminIdx (pr : ℚ × ℚ) : Bool := decide (pr.2 < pr.1)

/-- `np.max([p0, p1])`: the larger of the two branch probabilities. -/
def pmax2 (pr : ℚ × ℚ) : ℚ := if pr.1 < pr.2 then pr.2 else pr.1

/-- `np.min([p0, p1])`: the smaller of the two branch probabilities. -/
def pmin2 (pr : ℚ × ℚ) : ℚ := if pr.2 < pr.1 then pr.2 else pr.1

/-- The per-row search state of `EpsilonApproximationInferer._infer`:
this row of `__best_pred`, this row's entry of `__best_p`, and this row's
share of `__n_nodes` (the code adds `count_nonzero(mask)`, i.e. 1 per
active row, at each expanded node). -/
structure SS where
  bestPred : List Bool
  bestP : ℚ
  nNodes : ℕ
deriving DecidableEq

/-- `EpsilonApproximationInferer.__dfs` restricted to one row, recursing on
the number `rem` of estimators still to query (`rem = d - i`); `pre` is the
labels decided so far (`cur_pred[:i]`) and `curP` is `cur_p`.  At a leaf
the best path is replaced exactly when `cur_p > best_p` (strict).  At an
inner node the arg-max branch is always expanded; the arg-min branch is
expanded exactly when its accumulated score passes
`proba_min >= epsilon`. -/
def dfs (E : RowE) (loss : Loss) (eps : ℚ) : ℕ → List Bool → ℚ → SS → SS
  | 0, pre, curP, s =>
      if s.bestP < curP then { bestPred := pre, bestP := curP, nNodes := s.nNodes } else s
  | rem + 1, pre, curP, s =>
      if eps ≤ new_score loss curP (pmin2 (E pre)) then
        dfs E loss eps rem (pre ++ [argminIdx (E pre)])
          (new_score loss curP (pmin2 (E pre)))
          (dfs E loss eps rem (pre ++ [argmaxIdx (E pre)])
            (new_score loss curP (pmax2 (E pre))) { s with nNodes := s.nNodes + 1 })
      else
        dfs E loss eps rem (pre ++ [argmaxIdx (E pre)])
          (new_score loss curP (pmax2 (E pre))) { s with nNodes := s.nNodes + 1 }

/-- `EpsilonApproximationInferer._infer` for one row: `cur_pred` starts all
`False`, `cur_p` starts at `np.ones` (for both losses), `__best_pred` all
`False`, `__best_p` at `np.zeros`, `__n_nodes` at 0. -/
def inferRow (E : RowE) (loss : Loss) (eps : ℚ) (d : ℕ) : SS :=
  dfs E loss eps d [] 1 { bestPred := List.replicate d false, bestP := 0, nNodes := 0 }

/-- The accumulation loop shared by `BaseInferer.__calculate_reward` and
the internal path score: starting from `r`, fold the chosen-branch
probability of each remaining label over the estimators, extending the
decided part. -/
def rewardAux (E : RowE) (loss : Loss) : List Bool → List Bool → ℚ → ℚ
  | _, [], r => r
  | pre, b :: rest, r =>
      rewardAux E loss (pre ++ [b]) rest
        (new_score loss r (if b then (E pre).2 else (E pre).1))

/-- `BaseInferer.__calculate_reward` for one row: replay the chain-order
prediction through the estimators starting from the loss identity. -/
def rewardRow (E : RowE) (loss : Loss) (pred : List Bool) : ℚ :=
  rewardAux E loss [] pred (lossInit loss)

/-- The accumulated score the search itself assigns to a complete
chain-order path: the same fold, but started from 1 (`cur_p = np.ones`)
for both losses, matching the initialization in `_infer`. -/
def pathScore (E : RowE) (loss : Loss) (pred : List Bool) : ℚ :=
  rewardAux E loss [] pred 1

/-- `EpsilonApproximationInferer._infer` over a batch: chain-order
predictions per row, and `__n_nodes / len(x)`. -/
def epsilonInfer (loss : Loss) (eps : ℚ) (d : ℕ) (batch : List RowE) :
    List (List Bool) × ℚ :=
  (batch.map fun E => (inferRow E loss eps d).bestPred,
   (batch.map fun E => ((inferRow E loss eps d).nNodes : ℚ)).sum / batch.length)

/-- The sum of the per-row replayed rewards of `BaseInferer.__calculate_reward`
(the vectorized `reward` array summed over rows). -/
def rewardSum (loss : Loss) : List RowE → List (List Bool) → ℚ
  | [], _ => 0
  | _, [] => 0
  | E :: bs, p :: ps => rewardRow E loss p + rewardSum loss bs ps

/-- `reward.mean()` in `BaseInferer.__calculate_reward`. -/
def meanReward (loss : Loss) (batch : List RowE) (preds : List (List Bool)) : ℚ :=
  rewardSum loss batch preds / batch.length

/-- `BaseInferer.__fix_order`: output column `j` is the chain-order column
`inv_order[j]`, where `inv_order[order_[k]] = k`, i.e. `inv_order[j]` is
the position of label `j` inside `order_`. -/
def fixOrder (ord : List ℕ) (pred : List Bool) : List Bool :=
  (List.range pred.length).map fun j => pred.getD (ord.indexOf j) false

/-- A Python value appearing in the tuple returned by `BaseInferer.infer`:
a prediction matrix or a scalar. -/
inductive PyVal where
  | mat : List (List Bool) → PyVal
  | num : ℚ → PyVal
deriving DecidableEq

/-- The Python exceptions the embedded fragments can raise. -/
inductive PyErr where
  | valueError : PyErr
  | typeError : PyErr
  | assertionError : PyErr
  | exception : String → PyErr
deriving DecidableEq

/-- Python tuple unpacking into two targets, as in
`pred, num_nodes = inferer.infer(ds.test_x)`: succeeds exactly on a
length-2 tuple and raises `ValueError` otherwise. -/
def pyUnpack2 : List PyVal → Except PyErr (PyVal × PyVal)
  | [a, b] => Except.ok (a, b)
  | _ => Except.error PyErr.valueError

/-- `BaseInferer.infer`, parametrized by the child `_infer`: runs `_infer`,
computes the mean replayed reward on the chain-order prediction, reorders
the prediction, and returns the tuple `(pred, n_nodes, reward)` — three
components, as in the `return` statement of the source. -/
def infer (subInfer : List RowE → List (List Bool) × ℚ) (batch : List RowE)
    (loss : Loss) (ord : List ℕ) : List PyVal :=
  [PyVal.mat (((subInfer batch).1).map (fixOrder ord)),
   PyVal.num (subInfer batch).2,
   PyVal.num (meanReward loss batch (subInfer batch).1)]

/-- Models the external `sklearn` greedy chain rollout used by
`ClassifierChain.predict` on `inference_method='greedy'` (a third-party
dependency, specified at its boundary): each estimator in turn predicts
its arg-max class given the labels decided so far. -/
def greedyPath (E : RowE) : ℕ → List Bool → List Bool
  | 0, _ => []
  | rem + 1, pre =>
      let k := argmaxIdx (E pre)
      k :: greedyPath E rem (pre ++ [k])

/-- Modelled from the spec: `ExhaustiveSearchInferer` is imported and
instantiated by `ClassifierChain.predict`, but its source file is not in
the snapshot.  Per §4.3 it runs a full depth-first traversal branching on
both label values at every node, querying the estimator once per branch,
accumulating the score, and at depth `d` replacing the row's best path
exactly when the completed score is strictly greater. -/
def exhaustiveDfs (E : RowE) (loss : Loss) : ℕ → List Bool → ℚ → SS → SS
  | 0, pre, curP, s =>
      if s.bestP < curP then { bestPred := pre, bestP := curP, nNodes := s.nNodes } else s
  | rem + 1, pre, curP, s =>
      let s0 : SS := { s with nNodes := s.nNodes + 1 }
      let sL := exhaustiveDfs E loss rem (pre ++ [false]) (new_score loss curP (E pre).1) s0
      let s1 : SS := { sL with nNodes := sL.nNodes + 1 }
      exhaustiveDfs E loss rem (pre ++ [true]) (new_score loss curP (E pre).2) s1

/-- Modelled from the spec: one row of `ExhaustiveSearchInferer._infer`
(§3, §4.3): root path empty with the loss identity score, best score 0,
best path all `False`. -/
def exhaustiveRow (E : RowE) (loss : Loss) (d : ℕ) : SS :=
  exhaustiveDfs E loss d [] (lossInit loss)
    { bestPred := List.replicate d false, bestP := 0, nNodes := 0 }

/-- Modelled from the spec: `ExhaustiveSearchInferer._infer` over a batch,
visited nodes averaged over rows. -/
def exhaustiveInfer (loss : Loss) (d : ℕ) (batch : List RowE) :
    List (List Bool) × ℚ :=
  (batch.map fun E => (exhaustiveRow E loss d).bestPred,
   (batch.map fun E => ((exhaustiveRow E loss d).nNodes : ℚ)).sum / batch.length)

/-- `ClassifierChain.predict`.  The dispatch mirrors the source: greedy
returns the sklearn rollout with `len(estimators_)` as the node count;
`exhaustive_search` builds the inferer and evaluates
`pred, num_nodes = inferer.infer(...)` — Python unpacking of the 3-tuple
`infer` returns; `epsilon_approximation` evaluates
`EpsilonApproximationInferer(self.cc, kwargs['epsilon'])`, which omits the
required `loss` argument of the 3-argument constructor and therefore
raises `TypeError` before the body runs; the beam-search and Monte Carlo
branches (source files absent) are parametrized by their `_infer`
implementations and go through the same `infer` unpacking; any other
method name raises `Exception` without touching any estimator. -/
def predict (beamInfer mcInfer emcInfer : List RowE → List (List Bool) × ℚ)
    (batch : List RowE) (d : ℕ) (ord : List ℕ) (method : String)
    (loss : Loss) (return_num_nodes : Bool) : Except PyErr (List PyVal) :=
  if method = "greedy" then
    let pred := batch.map fun E => greedyPath E d []
    if return_num_nodes then Except.ok [PyVal.mat pred, PyVal.num (d : ℚ)]
    else Except.ok [PyVal.mat pred]
  else
    match (if method = "exhaustive_search" then
            pyUnpack2 (infer (exhaustiveInfer loss d) batch loss ord)
          else if method = "epsilon_approximation" then
            Except.error PyErr.typeError
          else if method = "beam_search" then
            pyUnpack2 (infer beamInfer batch loss ord)
          else if method = "monte_carlo" then
            pyUnpack2 (infer mcInfer batch loss ord)
          else if method = "efficient_monte_carlo" then
            pyUnpack2 (infer emcInfer batch loss ord)
          else Except.error (PyErr.exception "This inference method does not exist.")) with
  | Except.error e => Except.error e
  | Except.ok r =>
      if return_num_nodes then Except.ok [r.1, r.2] else Except.ok [r.1]

/-- `BaseInferer.__init__`: `assert(loss == 'exact_match' or loss == 'hamming')`.
The constructor takes no batch and queries no estimator; it only stores
the chain and validates the loss string. -/
def mkBaseInferer (loss : String) : Except PyErr Loss :=
  if loss = "exact_match" then Except.ok Loss.exact_match
  else if loss = "hamming" then Except.ok Loss.hamming
  else Except.error PyErr.assertionError

/-- `EpsilonApproximationInferer.__init__`: runs `super().__init__` (the
loss assert) and then `assert 0 <= epsilon <= 0.5`.  No estimator query
and no batch processing happens before either assert. -/
def mkEpsilonInferer (loss : String) (eps : ℚ) : Except PyErr (Loss × ℚ) :=
  match mkBaseInferer loss with
  | Except.error e => Except.error e
  | Except.ok l =>
      if 0 ≤ eps ∧ eps ≤ 1/2 then Except.ok (l, eps)
      else Except.error PyErr.assertionError

/-- The estimator family returns a genuine probability distribution at
every node, as `predict_proba` does: both entries nonnegative and summing
to 1. -/
def ValidProbs (E : RowE) : Prop :=
  ∀ pre : List Bool, 0 ≤ (E pre).1 ∧ 0 ≤ (E pre).2 ∧ (E pre).1 + (E pre).2 = 1

/-- The score accumulated along the pure arg-max path from a given node:
the score the first (always-expanded) complete path of `__dfs` reaches. -/
def greedyScore (E : RowE) (loss : Loss) : ℕ → List Bool → ℚ → ℚ
  | 0, _, curP => curP
  | rem + 1, pre, curP =>
      greedyScore E loss rem (pre ++ [argmaxIdx (E pre)])
        (new_score loss curP (pmax2 (E pre)))

/-- The number of estimator invocations `__dfs` performs for one row below
a given node, as a pure recursion (the search state does not influence the
control flow of `__dfs`, only what is stored). -/
def nodeCount (E : RowE) (loss : Loss) (eps : ℚ) : ℕ → List Bool → ℚ → ℕ
  | 0, _, _ => 0
  | rem + 1, pre, curP =>
      1 + nodeCount E loss eps rem (pre ++ [argmaxIdx (E pre)])
          (new_score loss curP (pmax2 (E pre))) +
        (if eps ≤ new_score loss curP (pmin2 (E pre)) then
          nodeCount E loss eps rem (pre ++ [argminIdx (E pre)])
            (new_score loss curP (pmin2 (E pre)))
        else 0)

/-- The depth-3 concrete scenario of the spec: `node(0)=[0.7,0.3]`,
`node(1|0)=[0.6,0.4]`, `node(1|1)=[0.2,0.8]`, `node(2|00)=[0.9,0.1]`,
`node(2|01)=[0.5,0.5]`, `node(2|10)=[0.4,0.6]`, `node(2|11)=[0.3,0.7]`. -/
def E3 : RowE := fun l =>
  if l = [] then (7/10, 3/10)
  else if l = [false] then (6/10, 4/10)
  else if l = [true] then (2/10, 8/10)
  else if l = [false, false] then (9/10, 1/10)
  else if l = [false, true] then (5/10, 5/10)
  else if l = [true, false] then (4/10, 6/10)
  else if l = [true, true] then (3/10, 7/10)
  else (1/2, 1/2)

/-- A depth-2 estimator family with a tie at the root: `node(0)=[0.5,0.5]`,
`node(1|0)=[0.6,0.4]`, `node(1|1)=[0.9,0.1]`; every value is a valid
probability.  The globally best path is `[1,0]` with score `0.45`. -/
def ETie : RowE := fun l =>
  if l = [] then (1/2, 1/2)
  else if l = [false] then (6/10, 4/10)
  else if l = [true] then (9/10, 1/10)
  else (1/2, 1/2)

/-! ### Helper lemmas about the search -/

theorem chooseMax (pr : ℚ × ℚ) :
    (if argmaxIdx pr then pr.2 else pr.1) = pmax2 pr := by
  by_cases h : pr.1 < pr.2 <;> simp [argmaxIdx, pmax2, h]

theorem chooseMin (pr : ℚ × ℚ) :
    (if argminIdx pr then pr.2 else pr.1) = pmin2 pr := by
  by_cases h : pr.2 < pr.1 <;> simp [argminIdx, pmin2, h]

theorem rewardAux_snoc (E : RowE) (loss : Loss) :
    ∀ (path pre : List Bool) (r : ℚ) (b : Bool),
      rewardAux E loss pre (path ++ [b]) r =
        new_score loss (rewardAux E loss pre path r)
          (if b then (E (pre ++ path)).2 else (E (pre ++ path)).1) := by
  intro path
  induction path with
  | nil =>
      intro pre r b
      simp [rewardAux]
  | cons hd tl ih =>
      intro pre r b
      simp only [List.cons_append, rewardAux, List.append_eq]
      rw [ih]
      simp [List.append_assoc]

theorem pathScore_snoc (E : RowE) (loss : Loss) (path : List Bool) (b : Bool) :
    pathScore E loss (path ++ [b]) =
      new_score loss (pathScore E loss path)
        (if b then (E path).2 else (E path).1) := by
  simpa [pathScore] using rewardAux_snoc E loss path [] 1 b

theorem dfs_bestP_mono (E : RowE) (loss : Loss) (eps : ℚ) :
    ∀ (rem : ℕ) (pre : List Bool) (curP : ℚ) (s : SS),
      s.bestP ≤ (dfs E loss eps rem pre curP s).bestP := by
  intro rem
  induction rem with
  | zero =>
      intro pre curP s
      simp only [dfs]
      split
      · next h => exact le_of_lt h
      · exact le_rfl
  | succ rem ih =>
      intro pre curP s
      simp only [dfs]
      split
      · exact le_trans
          (ih (pre ++ [argmaxIdx (E pre)]) (new_score loss curP (pmax2 (E pre)))
            { s with nNodes := s.nNodes + 1 })
          (ih _ _ _)
      · exact ih (pre ++ [argmaxIdx (E pre)]) (new_score loss curP (pmax2 (E pre)))
          { s with nNodes := s.nNodes + 1 }

theorem dfs_nNodes (E : RowE) (loss : Loss) (eps : ℚ) :
    ∀ (rem : ℕ) (pre : List Bool) (curP : ℚ) (s : SS),
      (dfs E loss eps rem pre curP s).nNodes =
        s.nNodes + nodeCount E loss eps rem pre curP := by
  intro rem
  induction rem with
  | zero =>
      intro pre curP s
      simp only [dfs, nodeCount]
      split <;> simp
  | succ rem ih =>
      intro pre curP s
      by_cases h : eps ≤ new_score loss curP (pmin2 (E pre))
      · simp only [dfs, nodeCount, if_pos h]
        rw [ih, ih]
        dsimp only
        omega
      · simp only [dfs, nodeCount, if_neg h]
        rw [ih]
        dsimp only
        omega

theorem nodeCount_anti (E : RowE) (loss : Loss) (e1 e2 : ℚ) (h12 : e1 ≤ e2) :
    ∀ (rem : ℕ) (pre : List Bool) (curP : ℚ),
      nodeCount E loss e2 rem pre curP ≤ nodeCount E loss e1 rem pre curP := by
  intro rem
  induction rem with
  | zero =>
      intro pre curP
      simp [nodeCount]
  | succ rem ih =>
      intro pre curP
      simp only [nodeCount]
      have hmax := ih (pre ++ [argmaxIdx (E pre)]) (new_score loss curP (pmax2 (E pre)))
      by_cases h2 : e2 ≤ new_score loss curP (pmin2 (E pre))
      · have h1 : e1 ≤ new_score loss curP (pmin2 (E pre)) := le_trans h12 h2
        rw [if_pos h1, if_pos h2]
        have hmin := ih (pre ++ [argminIdx (E pre)]) (new_score loss curP (pmin2 (E pre)))
        omega
      · rw [if_neg h2]
        split
        · omega
        · omega

theorem dfs_pred_or (E : RowE) (loss : Loss) (eps : ℚ) :
    ∀ (rem : ℕ) (pre : List Bool) (curP : ℚ) (s : SS),
      (dfs E loss eps rem pre curP s).bestPred = s.bestPred ∨
        s.bestP < (dfs E loss eps rem pre curP s).bestP := by
  intro rem
  induction rem with
  | zero =>
      intro pre curP s
      simp only [dfs]
      split
      · next h => exact Or.inr h
      · exact Or.inl rfl
  | succ rem ih =>
      intro pre curP s
      simp only [dfs]
      split
      · rcases ih (pre ++ [argmaxIdx (E pre)]) (new_score loss curP (pmax2 (E pre)))
            { s with nNodes := s.nNodes + 1 } with h1 | h1
        · rcases ih (pre ++ [argminIdx (E pre)]) (new_score loss curP (pmin2 (E pre)))
              (dfs E loss eps rem (pre ++ [argmaxIdx (E pre)])
                (new_score loss curP (pmax2 (E pre))) { s with nNodes := s.nNodes + 1 })
              with h2 | h2
          · exact Or.inl (h2.trans h1)
          · exact Or.inr (lt_of_le_of_lt
              (dfs_bestP_mono E loss eps rem (pre ++ [argmaxIdx (E pre)])
                (new_score loss curP (pmax2 (E pre))) { s with nNodes := s.nNodes + 1 }) h2)
        · exact Or.inr (lt_of_lt_of_le h1 (dfs_bestP_mono E loss eps rem _ _ _))
      · exact ih (pre ++ [argmaxIdx (E pre)]) (new_score loss curP (pmax2 (E pre)))
          { s with nNodes := s.nNodes + 1 }

theorem dfs_inv (E : RowE) (loss : Loss) (eps : ℚ) (init : List Bool) :
    ∀ (rem : ℕ) (pre : List Bool) (curP : ℚ) (s : SS),
      curP = pathScore E loss pre →
      (s.bestP = pathScore E loss s.bestPred ∨ (s.bestPred = init ∧ s.bestP = 0)) →
      ((dfs E loss eps rem pre curP s).bestP =
          pathScore E loss (dfs E loss eps rem pre curP s).bestPred ∨
        ((dfs E loss eps rem pre curP s).bestPred = init ∧
          (dfs E loss eps rem pre curP s).bestP = 0)) := by
  intro rem
  induction rem with
  | zero =>
      intro pre curP s hc hs
      simp only [dfs]
      split
      · exact Or.inl hc
      · exact hs
  | succ rem ih =>
      intro pre curP s hc hs
      have hmaxc : new_score loss curP (pmax2 (E pre)) =
          pathScore E loss (pre ++ [argmaxIdx (E pre)]) := by
        rw [pathScore_snoc, chooseMax, hc]
      have hminc : new_score loss curP (pmin2 (E pre)) =
          pathScore E loss (pre ++ [argminIdx (E pre)]) := by
        rw [pathScore_snoc, chooseMin, hc]
      simp only [dfs]
      split
      · exact ih (pre ++ [argminIdx (E pre)]) _ _ hminc
          (ih (pre ++ [argmaxIdx (E pre)]) _ { s with nNodes := s.nNodes + 1 } hmaxc hs)
      · exact ih (pre ++ [argmaxIdx (E pre)]) _ { s with nNodes := s.nNodes + 1 } hmaxc hs

theorem dfs_bestP_ge_greedy (E : RowE) (loss : Loss) (eps : ℚ) :
    ∀ (rem : ℕ) (pre : List Bool) (curP : ℚ) (s : SS),
      greedyScore E loss rem pre curP ≤ (dfs E loss eps rem pre curP s).bestP := by
  intro rem
  induction rem with
  | zero =>
      intro pre curP s
      simp only [dfs, greedyScore]
      split
      · exact le_rfl
      · next h => exact le_of_not_lt h
  | succ rem ih =>
      intro pre curP s
      simp only [dfs, greedyScore]
      split
      · exact le_trans
          (ih (pre ++ [argmaxIdx (E pre)]) (new_score loss curP (pmax2 (E pre)))
            { s with nNodes := s.nNodes + 1 })
          (dfs_bestP_mono E loss eps rem _ _ _)
      · exact ih (pre ++ [argmaxIdx (E pre)]) (new_score loss curP (pmax2 (E pre)))
          { s with nNodes := s.nNodes + 1 }

theorem pmax2_pos_of_valid (E : RowE) (hE : ValidProbs E) (pre : List Bool) :
    0 < pmax2 (E pre) := by
  rcases hE pre with ⟨h1, h2, hsum⟩
  by_cases h : (E pre).1 < (E pre).2
  · have : 0 < (E pre).2 := by nlinarith
    simpa [pmax2, h] using this
  · have : 0 < (E pre).1 := by
      push_neg at h
      nlinarith
    simpa [pmax2, h] using this

theorem greedyScore_pos (E : RowE) (hE : ValidProbs E) :
    ∀ (rem : ℕ) (pre : List Bool) (curP : ℚ),
      0 < curP → 0 < greedyScore E .exact_match rem pre curP := by
  intro rem
  induction rem with
  | zero =>
      intro pre curP h
      simpa [greedyScore] using h
  | succ rem ih =>
      intro pre curP h
      simp only [greedyScore]
      exact ih (pre ++ [argmaxIdx (E pre)]) _
        (mul_pos h (pmax2_pos_of_valid E hE pre))

/-! ### Concrete evaluations on the spec scenario -/

theorem validProbs_E3 : ValidProbs E3 := by
  intro pre
  unfold E3
  split_ifs <;> norm_num

theorem validProbs_ETie : ValidProbs ETie := by
  intro pre
  unfold ETie
  split_ifs <;> norm_num

theorem eval_inferRow_E3_half :
    inferRow E3 .exact_match (1/2) 3 =
      { bestPred := [false, false, false], bestP := 189/500, nNodes := 3 } := by
  norm_num [inferRow, dfs, E3, argmaxIdx, argminIdx, pmax2, pmin2, new_score,
    List.replicate, List.cons_ne_nil]

theorem eval_inferRow_E3_zero :
    inferRow E3 .exact_match 0 3 =
      { bestPred := [false, false, false], bestP := 189/500, nNodes := 7 } := by
  norm_num [inferRow, dfs, E3, argmaxIdx, argminIdx, pmax2, pmin2, new_score,
    List.replicate, List.cons_ne_nil]

theorem eval_greedyPath_E3 : greedyPath E3 3 [] = [false, false, false] := by
  norm_num [greedyPath, E3, argmaxIdx, List.cons_ne_nil]

theorem eval_exhaustiveRow_E3 :
    exhaustiveRow E3 .exact_match 3 =
      { bestPred := [false, false, false], bestP := 189/500, nNodes := 14 } := by
  norm_num [exhaustiveRow, exhaustiveDfs, E3, new_score, lossInit,
    List.replicate, List.cons_ne_nil]

theorem eval_inferRow_E3_hamming :
    inferRow E3 .hamming 0 1 = { bestPred := [false], bestP := 17/10, nNodes := 1 } := by
  norm_num [inferRow, dfs, E3, argmaxIdx, argminIdx, pmax2, pmin2, new_score,
    List.replicate, List.cons_ne_nil]

theorem eval_rewardRow_E3_hamming : rewardRow E3 .hamming [false] = 7/10 := by
  norm_num [rewardRow, rewardAux, E3, new_score, lossInit, List.cons_ne_nil]

theorem eval_inferRow_ETie :
    inferRow ETie .exact_match 0 2 =
      { bestPred := [false, false], bestP := 3/10, nNodes := 3 } := by
  norm_num [inferRow, dfs, ETie, argmaxIdx, argminIdx, pmax2, pmin2, new_score,
    List.replicate, List.cons_ne_nil]

theorem eval_pathScore_ETie : pathScore ETie .exact_match [true, false] = 9/20 := by
  norm_num [pathScore, rewardAux, ETie, new_score, List.cons_ne_nil]

/-! ### Reward replay versus internal best score (exact-match) -/

theorem rewardRow_eq_bestP (E : RowE) (hE : ValidProbs E) (eps : ℚ) (d : ℕ) :
    rewardRow E .exact_match (inferRow E .exact_match eps d).bestPred =
      (inferRow E .exact_match eps d).bestP := by
  have hone : (1 : ℚ) = pathScore E .exact_match [] := by
    simp [pathScore, rewardAux]
  have hinv := dfs_inv E .exact_match eps (List.replicate d false) d [] 1
    { bestPred := List.replicate d false, bestP := 0, nNodes := 0 }
    hone (Or.inr ⟨rfl, rfl⟩)
  have hpos : 0 < (inferRow E .exact_match eps d).bestP := by
    have hg := dfs_bestP_ge_greedy E .exact_match eps d [] 1
      { bestPred := List.replicate d false, bestP := 0, nNodes := 0 }
    have := greedyScore_pos E hE d [] 1 one_pos
    exact lt_of_lt_of_le this hg
  rcases hinv with h | ⟨_, h0⟩
  · show rewardAux E .exact_match [] (inferRow E .exact_match eps d).bestPred
        (lossInit .exact_match) = _
    rw [show lossInit .exact_match = 1 from rfl]
    exact (h.symm).symm ▸ h.symm
  · rw [inferRow] at hpos
    rw [h0] at hpos
    exact absurd hpos (lt_irrefl 0)

theorem rewardSum_eq_bestP_sum (eps : ℚ) (d : ℕ) :
    ∀ batch : List RowE, (∀ E ∈ batch, ValidProbs E) →
      rewardSum .exact_match batch
          (batch.map fun E => (inferRow E .exact_match eps d).bestPred) =
        (batch.map fun E => (inferRow E .exact_match eps d).bestP).sum := by
  intro batch
  induction batch with
  | nil =>
      intro _
      simp [rewardSum]
  | cons E bs ih =>
      intro h
      simp only [List.map_cons, rewardSum, List.sum_cons]
      rw [rewardRow_eq_bestP E (h E (by simp)) eps d,
        ih (fun e he => h e (by simp [he]))]

/-! ### Batch-level node-count comparison -/

theorem inferRow_nNodes_anti (E : RowE) (loss : Loss) (d : ℕ) (e1 e2 : ℚ)
    (h12 : e1 ≤ e2) :
    (inferRow E loss e2 d).nNodes ≤ (inferRow E loss e1 d).nNodes := by
  unfold inferRow
  rw [dfs_nNodes, dfs_nNodes]
  have := nodeCount_anti E loss e1 e2 h12 d [] 1
  omega

/-! ### Claim theorems -/

/-- C1: `BaseInferer.infer` does not return the pair the spec describes.
Its `return pred, n_nodes, reward` yields a 3-tuple for every strategy,
batch, loss and label order, so the two-target unpacking
`pred, num_nodes = inferer.infer(...)` in `ClassifierChain.predict`
raises `ValueError` for a non-greedy method instead of returning the
prediction — evaluated here on the spec's depth-3 scenario with
`exhaustive_search`. -/
theorem c1_infer_returns_triple_not_pair :
    (∀ (subInfer : List RowE → List (List Bool) × ℚ) (batch : List RowE)
        (loss : Loss) (ord : List ℕ), (infer subInfer batch loss ord).length = 3) ∧
      predict (epsilonInfer .exact_match 0 3) (epsilonInfer .exact_match 0 3)
          (epsilonInfer .exact_match 0 3) [E3] 3 [0, 1, 2] "exhaustive_search"
          .exact_match true = Except.error PyErr.valueError := by
  constructor
  · intro subInfer batch loss ord
    rfl
  · rfl

/-- C2: on the tie input `ETie` (all values genuine probabilities), the
epsilon search with `epsilon = 0` returns path `[0,0]` with internal score
`0.3`, although the complete path `[1,0]` scores `0.45`: at the root tie
`argmax` and `argmin` both select branch 0, so the subtree under label 1
is never expanded, the `2^depth` paths are not all enumerated, and the
returned path does not attain the global maximum that exhaustive search
would return. -/
theorem c2_epsilon_zero_misses_optimum_on_tie :
    ValidProbs ETie ∧
      inferRow ETie .exact_match 0 2 =
        { bestPred := [false, false], bestP := 3/10, nNodes := 3 } ∧
      pathScore ETie .exact_match [true, false] = 9/20 ∧
      (inferRow ETie .exact_match 0 2).bestP <
        pathScore ETie .exact_match [true, false] := by
  refine ⟨validProbs_ETie, eval_inferRow_ETie, eval_pathScore_ETie, ?_⟩
  rw [eval_inferRow_ETie, eval_pathScore_ETie]
  norm_num

/-- C3: `ClassifierChain.predict` raises for recognized methods supplied
with valid options: `epsilon_approximation` raises `TypeError` (the call
site omits the required `loss` constructor argument), and the other
non-greedy methods raise `ValueError` (two-target unpacking of the
3-tuple `infer` returns); an unrecognized name raises the generic
`Exception`, and only `greedy` completes. -/
theorem c3_predict_raises_for_recognized_methods :
    predict (epsilonInfer .exact_match 0 3) (epsilonInfer .exact_match 0 3)
        (epsilonInfer .exact_match 0 3) [E3] 3 [0, 1, 2] "epsilon_approximation"
        .exact_match false = Except.error PyErr.typeError ∧
      predict (epsilonInfer .exact_match 0 3) (epsilonInfer .exact_match 0 3)
          (epsilonInfer .exact_match 0 3) [E3] 3 [0, 1, 2] "monte_carlo"
          .exact_match false = Except.error PyErr.valueError ∧
      predict (epsilonInfer .exact_match 0 3) (epsilonInfer .exact_match 0 3)
          (epsilonInfer .exact_match 0 3) [E3] 3 [0, 1, 2] "bogus"
          .exact_match false =
        Except.error (PyErr.exception "This inference method does not exist.") ∧
      predict (epsilonInfer .exact_match 0 3) (epsilonInfer .exact_match 0 3)
          (epsilonInfer .exact_match 0 3) [E3] 3 [0, 1, 2] "greedy"
          .exact_match false = Except.ok [PyVal.mat [[false, false, false]]] := by
  refine ⟨rfl, rfl, rfl, ?_⟩
  have h : greedyPath E3 3 [] = [false, false, false] := eval_greedyPath_E3
  simp [predict, h]

/-- C4 counterexample: on the spec's depth-3 scenario with
`epsilon = 0.5`, the returned path is not `[1,1,1]`. -/
theorem c4_counterexample_not_all_true :
    (inferRow E3 .exact_match (1/2) 3).bestPred ≠ [true, true, true] := by
  rw [eval_inferRow_E3_half]
  simp

/-- C4 amended: with `epsilon = 0.5` on the spec's depth-3 scenario the
search expands only the arg-max branch at every node (3 estimator
invocations, one per level — early termination with no non-max branch
expanded) and returns exactly the greedy path, which is `[0,0,0]` (score
`0.378`), not `[1,1,1]`. -/
theorem c4_amended_half_epsilon_is_greedy :
    inferRow E3 .exact_match (1/2) 3 =
        { bestPred := greedyPath E3 3 [], bestP := 189/500, nNodes := 3 } ∧
      greedyPath E3 3 [] = [false, false, false] := by
  refine ⟨?_, eval_greedyPath_E3⟩
  rw [eval_inferRow_E3_half, eval_greedyPath_E3]

/-- C5 counterexample: the epsilon inferer with `epsilon = 0` on the
spec's depth-3 scenario reports a mean visited-node count of 7, not 14:
`__dfs` queries each expanded internal node's estimator once (the call
returns both branch probabilities), so the full tree costs
`2^0 + 2^1 + 2^2 = 7` invocations per row. -/
theorem c5_counterexample_node_count_not_14 :
    (epsilonInfer .exact_match 0 3 [E3]).2 ≠ 14 := by
  have h : (epsilonInfer .exact_match 0 3 [E3]).2 = 7 := by
    simp [epsilonInfer, eval_inferRow_E3_zero]
  rw [h]
  norm_num

/-- C5 amended: on the spec's depth-3 scenario under exact-match loss,
full enumeration returns the product-maximal path `[0,0,0]` with score
`0.378`; the epsilon inferer with `epsilon = 0` reports 7 mean visited
nodes (one estimator invocation per expanded node), while the
spec-modelled `ExhaustiveSearchInferer`, which queries once per branch,
reports `2 + 4 + 8 = 14`. -/
theorem c5_amended_exhaustive_scenario :
    epsilonInfer .exact_match 0 3 [E3] = ([[false, false, false]], 7) ∧
      (inferRow E3 .exact_match 0 3).bestP = 189/500 ∧
      exhaustiveInfer .exact_match 3 [E3] = ([[false, false, false]], 14) := by
  refine ⟨?_, ?_, ?_⟩
  · simp [epsilonInfer, eval_inferRow_E3_zero]
  · rw [eval_inferRow_E3_zero]
  · simp [exhaustiveInfer, eval_exhaustiveRow_E3]

/-- C6 counterexample: under hamming loss the replayed mean reward does
not equal the mean internal best-path score: on a depth-1 batch the
reward is `0.7` while the internal score is `1.7`, because `_infer`
initializes its accumulator `cur_p` to `np.ones` for both losses whereas
the reward replay starts from the additive identity 0. -/
theorem c6_counterexample_hamming :
    meanReward .hamming [E3] (epsilonInfer .hamming 0 1 [E3]).1 ≠
      ((([E3] : List RowE).map fun E => (inferRow E .hamming 0 1).bestP).sum) /
        ([E3] : List RowE).length := by
  have hl : meanReward .hamming [E3] (epsilonInfer .hamming 0 1 [E3]).1 = 7/10 := by
    simp [meanReward, epsilonInfer, rewardSum, eval_inferRow_E3_hamming,
      eval_rewardRow_E3_hamming]
  have hr : ((([E3] : List RowE).map fun E => (inferRow E .hamming 0 1).bestP).sum) /
      ([E3] : List RowE).length = 17/10 := by
    simp [eval_inferRow_E3_hamming]
  rw [hl, hr]
  norm_num

/-- C6 amended: under exact-match loss (where the reward identity and the
search's accumulator initialization agree) and estimators returning
genuine probability distributions, the harness's mean replayed reward
equals the mean over rows of the internal best-path score of the epsilon
search, for every batch and every epsilon. -/
theorem c6_amended_reward_replay_exact_match (batch : List RowE) (eps : ℚ) (d : ℕ)
    (hE : ∀ E ∈ batch, ValidProbs E) :
    meanReward .exact_match batch (epsilonInfer .exact_match eps d batch).1 =
      ((batch.map fun E => (inferRow E .exact_match eps d).bestP).sum) /
        batch.length := by
  unfold meanReward
  rw [show (epsilonInfer .exact_match eps d batch).1 =
      batch.map (fun E => (inferRow E .exact_match eps d).bestPred) from rfl]
  rw [rewardSum_eq_bestP_sum eps d batch hE]

/-- C6 witness: the amended theorem applied to the concrete depth-3
scenario batch. -/
theorem c6_witness_scenario :
    meanReward .exact_match [E3] (epsilonInfer .exact_match 0 3 [E3]).1 =
      ((([E3] : List RowE).map fun E => (inferRow E .exact_match 0 3).bestP).sum) /
        ([E3] : List RowE).length :=
  c6_amended_reward_replay_exact_match [E3] 0 3 (by
    intro E hE
    have h : E = E3 := List.mem_singleton.mp hE
    rw [h]
    exact validProbs_E3)

/-- C7: for a fixed batch, loss and (deterministic) estimator families,
the mean visited-node count of the epsilon search is antitone in epsilon:
decreasing epsilon within `[0, 0.5]` never decreases the reported count,
because the pruning condition `proba_min >= epsilon` only weakens. -/
theorem c7_node_count_antitone_in_epsilon (batch : List RowE) (loss : Loss)
    (d : ℕ) (e1 e2 : ℚ) (_h0 : 0 ≤ e1) (h12 : e1 ≤ e2) (_h2 : e2 ≤ 1/2) :
    (epsilonInfer loss e2 d batch).2 ≤ (epsilonInfer loss e1 d batch).2 := by
  unfold epsilonInfer
  apply div_le_div_of_nonneg_right ?_ (by positivity)
  apply List.sum_le_sum
  intro E hEb
  have h := inferRow_nNodes_anti E loss d e1 e2 h12
  exact_mod_cast h

/-- C7 witness: the theorem applied on the depth-3 scenario batch with
`e1 = 0` and `e2 = 1/2`. -/
theorem c7_witness_scenario :
    (epsilonInfer .exact_match (1/2) 3 [E3]).2 ≤
      (epsilonInfer .exact_match 0 3 [E3]).2 :=
  c7_node_count_antitone_in_epsilon [E3] .exact_match 3 0 (1/2) le_rfl
    (by norm_num) le_rfl

/-- C8: constructing an inferer succeeds exactly when the loss string is
one of `exact_match`/`hamming` (otherwise the `assert` in
`BaseInferer.__init__` fires), and the epsilon inferer additionally
requires `0 <= epsilon <= 0.5`; both constructors validate before any
estimator query or batch processing (they receive no batch at all). -/
theorem c8_constructor_validation :
    (∀ loss : String, (∃ l, mkBaseInferer loss = Except.ok l) ↔
      (loss = "exact_match" ∨ loss = "hamming")) ∧
    (∀ (loss : String) (eps : ℚ), (∃ r, mkEpsilonInferer loss eps = Except.ok r) ↔
      ((loss = "exact_match" ∨ loss = "hamming") ∧ 0 ≤ eps ∧ eps ≤ 1/2)) := by
  constructor
  · intro loss
    unfold mkBaseInferer
    split_ifs with h1 h2
    · simp [h1]
    · simp [h1, h2]
    · simp [h1, h2]
  · intro loss eps
    have hmatch : ∀ l : Loss, mkBaseInferer loss = Except.ok l →
        mkEpsilonInferer loss eps =
          (if 0 ≤ eps ∧ eps ≤ 1/2 then Except.ok (l, eps)
           else Except.error PyErr.assertionError) := fun l hl => by
      unfold mkEpsilonInferer
      rw [hl]
    have herr : ∀ e : PyErr, mkBaseInferer loss = Except.error e →
        mkEpsilonInferer loss eps = Except.error e := fun e hl => by
      unfold mkEpsilonInferer
      rw [hl]
    by_cases h1 : loss = "exact_match"
    · have hb : mkBaseInferer loss = Except.ok Loss.exact_match := by
        unfold mkBaseInferer
        rw [if_pos h1]
      rw [hmatch _ hb]
      by_cases hc : 0 ≤ eps ∧ eps ≤ 1/2
      · rw [if_pos hc]
        exact ⟨fun _ => ⟨Or.inl h1, hc⟩, fun _ => ⟨(Loss.exact_match, eps), rfl⟩⟩
      · rw [if_neg hc]
        constructor
        · rintro ⟨r, hr⟩
          exact absurd hr (by simp)
        · rintro ⟨_, hc2⟩
          exact absurd hc2 hc
    · by_cases h2 : loss = "hamming"
      · have hb : mkBaseInferer loss = Except.ok Loss.hamming := by
          unfold mkBaseInferer
          rw [if_neg h1, if_pos h2]
        rw [hmatch _ hb]
        by_cases hc : 0 ≤ eps ∧ eps ≤ 1/2
        · rw [if_pos hc]
          exact ⟨fun _ => ⟨Or.inr h2, hc⟩, fun _ => ⟨(Loss.hamming, eps), rfl⟩⟩
        · rw [if_neg hc]
          constructor
          · rintro ⟨r, hr⟩
            exact absurd hr (by simp)
          · rintro ⟨_, hc2⟩
            exact absurd hc2 hc
      · have hb : mkBaseInferer loss = Except.error PyErr.assertionError := by
          unfold mkBaseInferer
          rw [if_neg h1, if_neg h2]
        rw [herr _ hb]
        constructor
        · rintro ⟨r, hr⟩
          exact absurd hr (by simp)
        · rintro ⟨hl, _⟩
          rcases hl with h | h
          · exact absurd h h1
          · exact absurd h h2

/-- C9: the best-path bookkeeping of `__dfs`: (a) at a leaf the stored
best path is replaced exactly when the completed score is strictly
greater; (b) the best score never decreases during the search; (c) the
stored prediction changes only together with a strict increase of the
best score; (d) `_infer` starts from best score 0 and the all-`False`
prediction. -/
theorem c9_best_path_invariants :
    (∀ (E : RowE) (loss : Loss) (eps : ℚ) (pre : List Bool) (curP : ℚ) (s : SS),
      dfs E loss eps 0 pre curP s =
        if s.bestP < curP then { bestPred := pre, bestP := curP, nNodes := s.nNodes }
        else s) ∧
    (∀ (E : RowE) (loss : Loss) (eps : ℚ) (rem : ℕ) (pre : List Bool) (curP : ℚ)
        (s : SS), s.bestP ≤ (dfs E loss eps rem pre curP s).bestP) ∧
    (∀ (E : RowE) (loss : Loss) (eps : ℚ) (rem : ℕ) (pre : List Bool) (curP : ℚ)
        (s : SS), (dfs E loss eps rem pre curP s).bestPred = s.bestPred ∨
          s.bestP < (dfs E loss eps rem pre curP s).bestP) ∧
    (∀ (E : RowE) (loss : Loss) (eps : ℚ) (d : ℕ),
      inferRow E loss eps d =
        dfs E loss eps d [] 1
          { bestPred := List.replicate d false, bestP := 0, nNodes := 0 }) :=
  ⟨fun _ _ _ _ _ _ => rfl,
   fun E loss eps => dfs_bestP_mono E loss eps,
   fun E loss eps => dfs_pred_or E loss eps,
   fun _ _ _ _ => rfl⟩

/-- C10: the epsilon search is deterministic — extensionally equal
estimator families give equal results (there is no randomness or ambient
state in the embedded search) — and on a tie of the two branch
probabilities both the always-expanded branch (`argmax`) and the
conditionally expanded branch (`argmin`) are labelled with index 0. -/
theorem c10_deterministic_and_tie_index_zero :
    (∀ (E1 E2 : RowE) (loss : Loss) (eps : ℚ) (d : ℕ),
      (∀ pre, E1 pre = E2 pre) →
        inferRow E1 loss eps d = inferRow E2 loss eps d) ∧
    (∀ pr : ℚ × ℚ, pr.1 = pr.2 → argmaxIdx pr = false ∧ argminIdx pr = false) := by
  constructor
  · intro E1 E2 loss eps d h
    have hE : E1 = E2 := funext h
    rw [hE]
  · intro pr h
    constructor <;> simp [argmaxIdx, argminIdx, h]

/-- C10 witness: determinism applied at the concrete scenario family and
the tie clause at `(0.5, 0.5)`. -/
theorem c10_witness_scenario :
    inferRow E3 .exact_match 0 3 = inferRow E3 .exact_match 0 3 ∧
      argmaxIdx (1/2, 1/2) = false ∧ argminIdx (1/2, 1/2) = false :=
  ⟨c10_deterministic_and_tie_index_zero.1 E3 E3 .exact_match 0 3 (fun _ => rfl),
   (c10_deterministic_and_tie_index_zero.2 (1/2, 1/2) rfl).1,
   (c10_deterministic_and_tie_index_zero.2 (1/2, 1/2) rfl).2⟩
